import Mathlib

/-!
Shallow embedding of the order-sizing, precision-rounding and risk-gated
execution engine of src/main.py (a webhook-driven margin-trading relay).

Modelling conventions:
* Python float values are idealised as exact rationals.
* Python Decimal values (always produced here from decimal strings with a
  nonpositive exponent) are modelled exactly as a scaled integer: a mantissa
  together with a count of fractional digits, trailing zeros preserved.
* Rational arithmetic is written with the mkRat-based operations qadd, qsub,
  qmul, qdiv, qmin below, which are proved equal to the ordinary field
  operations; this keeps every definition evaluable by the kernel.
* Network effects are modelled by an environment record supplying the outcome
  of each call site, and every function returns the list of outbound calls it
  performed, in order.
-/

-- ===== kernel-evaluable rational arithmetic =====

def qadd (a b : ℚ) : ℚ := mkRat (a.num * b.den + b.num * a.den) (a.den * b.den)

def qsub (a b : ℚ) : ℚ := mkRat (a.num * b.den - b.num * a.den) (a.den * b.den)

def qmul (a b : ℚ) : ℚ := mkRat (a.num * b.num) (a.den * b.den)

def qdiv (a b : ℚ) : ℚ := qmul a (Rat.divInt (b.den : Int) b.num)

def qmin (a b : ℚ) : ℚ := if a ≤ b then a else b

def pow10 (s : Nat) : ℚ := mkRat ((10 : Int) ^ s) 1

theorem qadd_eq (a b : ℚ) : qadd a b = a + b := (Rat.add_def' a b).symm

theorem qsub_eq (a b : ℚ) : qsub a b = a - b := (Rat.sub_def' a b).symm

theorem qmul_eq (a b : ℚ) : qmul a b = a * b := by
  rw [qmul, Rat.mul_def, Rat.normalize_eq_mkRat]

theorem qdiv_eq (a b : ℚ) : qdiv a b = a / b := by
  rw [qdiv, qmul_eq, Rat.div_def, Rat.inv_def]

theorem qmin_eq (a b : ℚ) : qmin a b = min a b := (min_def a b).symm

theorem pow10_eq (s : Nat) : pow10 s = (10 : ℚ) ^ s := by
  rw [pow10, Rat.mkRat_one]
  push_cast
  ring

-- ===== exact decimals and rounding =====

/-- Exact decimal number, as produced by Python Decimal from an exchange
string such as "0.00001000": mantissa 1000 with 8 fractional digits.
Trailing zeros of the source string are preserved in the scale. -/
structure Dec where
  mant : Int
  scale : Nat
deriving DecidableEq, Repr

def Dec.toRat (d : Dec) : ℚ := mkRat d.mant (10 ^ d.scale)

theorem Dec.toRat_eq (d : Dec) : d.toRat = (d.mant : ℚ) / (10 : ℚ) ^ d.scale := by
  rw [Dec.toRat, Rat.mkRat_eq_divInt, Rat.divInt_eq_div]
  push_cast
  ring

/-- Truncation toward zero: the semantics of Python Decimal floor division
(the // operator) and of Decimal ROUND_DOWN. -/
def truncQ (q : ℚ) : Int := q.num.tdiv q.den

/-- Rounding away from zero: the semantics of Python Decimal ROUND_UP.
A normalized rational is integral exactly when its denominator is 1. -/
def awayQ (q : ℚ) : Int :=
  if q.den = 1 then q.num
  else if 0 ≤ q then truncQ q + 1 else truncQ q - 1

def digitChar (d : Nat) : Char := Char.ofNat (48 + d)

/-- Decimal digit characters of a natural number, most significant first.
Fuel-structured so that it reduces definitionally. -/
def natDigitsF : Nat → Nat → List Char
  | 0, _ => []
  | f + 1, n => if n < 10 then [digitChar n] else natDigitsF f (n / 10) ++ [digitChar (n % 10)]

def digitsOf (n : Nat) : List Char := natDigitsF (n + 1) n

/-- Left-pad a digit list with zero characters to the requested width, as
Python fixed-point formatting does for the fractional part. -/
def padZeros (s : Nat) (l : List Char) : List Char :=
  List.replicate (s - l.length) '0' ++ l

/-- Fixed-point rendering of a scaled integer with exactly s fractional
digits (no dot when s = 0), the shape produced by Python format(q, ".sf")
on a Decimal q that is exact at scale s. -/
def decRenderList (m : Int) (s : Nat) : List Char :=
  let sign : List Char := if m < 0 then ['-'] else []
  let n := m.natAbs
  if s = 0 then sign ++ digitsOf n
  else sign ++ digitsOf (n / 10 ^ s) ++ '.' :: padZeros s (digitsOf (n % 10 ^ s))

def decRender (m : Int) (s : Nat) : String := String.mk (decRenderList m s)

/-- Count of fractional digits of a character list: the length of the
suffix after the dot, and zero when there is no dot. -/
def fracDigitCountL (l : List Char) : Nat :=
  if '.' ∈ l then (l.reverse.takeWhile (fun c => c != '.')).length else 0

/-- Count of fractional digits of a rendered decimal string. -/
def fracDigitCount (str : String) : Nat :=
  fracDigitCountL str.toList

/-- The string uses no exponent marker, i.e. it is not scientific form. -/
def plainDecStr (str : String) : Bool :=
  str.toList.all (fun c => c != 'e' && c != 'E')

/-- Integer multiplier computed by floor_to_step_str: value // step under
Python Decimal semantics. -/
def quantizeDownMult (value : ℚ) (step : Dec) : Int :=
  truncQ (qdiv value step.toRat)

/-- Embedding of floor_to_step_str from src/main.py: n = (v // step) * step,
then n is quantized at the step's fractional-digit count (exact, because n
is an integer multiple of 10^(-scale)) and rendered fixed-point. -/
def floor_to_step_str (value : ℚ) (step : Dec) : String :=
  decRender (quantizeDownMult value step * step.mant) step.scale

/-- Numeric value denoted by the string floor_to_step_str returns. -/
def floor_to_step_val (value : ℚ) (step : Dec) : ℚ :=
  qmul ((quantizeDownMult value step : Int) : ℚ) step.toRat

inductive Rnd
  | down
  | up
deriving DecidableEq, Repr

def roundAtScale (r : Rnd) (q : ℚ) (s : Nat) : Int :=
  match r with
  | .down => truncQ (qmul q (pow10 s))
  | .up => awayQ (qmul q (pow10 s))

/-- Embedding of format_price_to_tick from src/main.py: quantize the price
at the tick's scale with the requested rounding and render fixed-point. -/
def format_price_to_tick (price : ℚ) (tick : Dec) (r : Rnd) : String :=
  decRender (roundAtScale r price tick.scale) tick.scale

/-- Numeric value denoted by the string format_price_to_tick returns. -/
def format_price_val (price : ℚ) (tick : Dec) (r : Rnd) : ℚ :=
  mkRat (roundAtScale r price tick.scale) (10 ^ tick.scale)

/-- Embedding of Decimal.quantize at a given scale with ROUND_DOWN, as used
by the short-entry sizing. Note it quantizes to the step's exponent, not to
a multiple of the step's mantissa. -/
def quantAtScale (q : ℚ) (s : Nat) : ℚ :=
  mkRat (truncQ (qmul q (pow10 s))) (10 ^ s)

-- ===== basic lemmas about the quantizer =====

theorem truncQ_eq_natDiv {q : ℚ} (h : 0 ≤ q) :
    truncQ q = ((q.num.toNat / q.den : ℕ) : ℤ) := by
  have hnum : 0 ≤ q.num := Rat.num_nonneg.mpr h
  rw [truncQ, ← Int.toNat_of_nonneg hnum]
  rfl

theorem rat_eq_toNat_div {q : ℚ} (h : 0 ≤ q) :
    q = (q.num.toNat : ℚ) / (q.den : ℚ) := by
  have hnum : 0 ≤ q.num := Rat.num_nonneg.mpr h
  conv_lhs => rw [← q.num_div_den]
  congr 1
  exact_mod_cast (Int.toNat_of_nonneg hnum).symm

theorem truncQ_cast_le {q : ℚ} (h : 0 ≤ q) : (truncQ q : ℚ) ≤ q := by
  have hd : (0 : ℚ) < (q.den : ℚ) := by
    exact_mod_cast Nat.pos_of_ne_zero q.den_nz
  rw [truncQ_eq_natDiv h]
  calc ((q.num.toNat / q.den : ℕ) : ℚ)
      ≤ (q.num.toNat : ℚ) / (q.den : ℚ) := by exact_mod_cast Nat.cast_div_le
    _ = q := (rat_eq_toNat_div h).symm

theorem lt_truncQ_add_one {q : ℚ} (h : 0 ≤ q) : q < (truncQ q : ℚ) + 1 := by
  have hdn : 0 < q.den := Nat.pos_of_ne_zero q.den_nz
  have hd : (0 : ℚ) < (q.den : ℚ) := by exact_mod_cast hdn
  have key : q.num.toNat < (q.num.toNat / q.den + 1) * q.den := by
    calc q.num.toNat
        = q.den * (q.num.toNat / q.den) + q.num.toNat % q.den :=
          (Nat.div_add_mod _ _).symm
      _ < q.den * (q.num.toNat / q.den) + q.den := by
          have := Nat.mod_lt q.num.toNat hdn
          omega
      _ = (q.num.toNat / q.den + 1) * q.den := by ring
  have hgoal : q < ((q.num.toNat / q.den : ℕ) : ℚ) + 1 := by
    calc q = (q.num.toNat : ℚ) / (q.den : ℚ) := rat_eq_toNat_div h
      _ < ((q.num.toNat / q.den : ℕ) : ℚ) + 1 := by
          rw [div_lt_iff₀ hd]
          exact_mod_cast key
  rw [truncQ_eq_natDiv h]
  exact_mod_cast hgoal

theorem truncQ_nonneg {q : ℚ} (h : 0 ≤ q) : 0 ≤ truncQ q := by
  rw [truncQ_eq_natDiv h]
  exact_mod_cast Nat.zero_le _

theorem natDigitsF_mem {f n : Nat} (hf : n < f) {c : Char}
    (hc : c ∈ natDigitsF f n) : ∃ d, d < 10 ∧ c = digitChar d := by
  induction f generalizing n with
  | zero => omega
  | succ f ih =>
    simp only [natDigitsF] at hc
    by_cases h10 : n < 10
    · simp only [if_pos h10, List.mem_singleton] at hc
      exact ⟨n, h10, hc⟩
    · simp only [if_neg h10, List.mem_append, List.mem_singleton] at hc
      rcases hc with hc | hc
      · exact ih (by omega : n / 10 < f) hc
      · exact ⟨n % 10, Nat.mod_lt _ (by omega), hc⟩

theorem natDigitsF_length {f n s : Nat} (hf : n < f) (hn : n < 10 ^ s)
    (hs : 0 < s) : (natDigitsF f n).length ≤ s := by
  induction f generalizing n s with
  | zero => omega
  | succ f ih =>
    simp only [natDigitsF]
    by_cases h10 : n < 10
    · simp [if_pos h10]; omega
    · simp only [if_neg h10, List.length_append, List.length_singleton]
      have hs2 : 2 ≤ s := by
        by_contra hlt
        have : s = 1 := by omega
        subst this
        simp at hn
        omega
      have hdiv : n / 10 < 10 ^ (s - 1) := by
        rw [Nat.div_lt_iff_lt_mul (by omega : 0 < 10)]
        calc n < 10 ^ s := hn
        _ = 10 ^ (s - 1) * 10 := by
              rw [← pow_succ]
              congr 1
              omega
      have := ih (by omega : n / 10 < f) hdiv (by omega)
      omega

theorem digitsOf_mem {n : Nat} {c : Char} (hc : c ∈ digitsOf n) :
    ∃ d, d < 10 ∧ c = digitChar d :=
  natDigitsF_mem (Nat.lt_succ_self n) hc

theorem digitsOf_length {n s : Nat} (hn : n < 10 ^ s) (hs : 0 < s) :
    (digitsOf n).length ≤ s :=
  natDigitsF_length (Nat.lt_succ_self n) hn hs

theorem digitChar_props {d : Nat} (hd : d < 10) :
    digitChar d ≠ '.' ∧ digitChar d ≠ 'e' ∧ digitChar d ≠ 'E' ∧ digitChar d ≠ '-' := by
  interval_cases d <;> exact ⟨by decide, by decide, by decide, by decide⟩

theorem digitsOf_no_dot {n : Nat} : '.' ∉ digitsOf n := by
  intro h
  obtain ⟨d, hd, hc⟩ := digitsOf_mem h
  exact (digitChar_props hd).1 hc.symm

theorem takeWhile_append_all {p : Char → Bool} {xs ys : List Char} {y : Char}
    (hx : ∀ x ∈ xs, p x = true) (hy : p y = false) :
    (xs ++ y :: ys).takeWhile p = xs := by
  induction xs with
  | nil => simp [List.takeWhile_cons, hy]
  | cons a l ih =>
    have ha : p a = true := hx a (List.mem_cons_self a l)
    rw [List.cons_append, List.takeWhile_cons, ha]
    simp only []
    exact congrArg (a :: ·) (ih fun x hx2 => hx x (List.mem_cons_of_mem a hx2))

theorem padZeros_length {s : Nat} {l : List Char} (h : l.length ≤ s) :
    (padZeros s l).length = s := by
  simp [padZeros]
  omega

theorem padZeros_mem {s : Nat} {l : List Char} {c : Char}
    (hc : c ∈ padZeros s l) : c = '0' ∨ c ∈ l := by
  simp only [padZeros, List.mem_append, List.mem_replicate] at hc
  rcases hc with ⟨_, h⟩ | h
  · exact Or.inl h
  · exact Or.inr h

theorem fracDigitCountL_no_dot {l : List Char} (h : '.' ∉ l) :
    fracDigitCountL l = 0 := by
  rw [fracDigitCountL, if_neg h]

theorem fracDigitCountL_shape (ip fp : List Char) (hfp : ∀ c ∈ fp, c ≠ '.') :
    fracDigitCountL (ip ++ '.' :: fp) = fp.length := by
  have hmem : '.' ∈ ip ++ '.' :: fp := by simp
  rw [fracDigitCountL, if_pos hmem, List.reverse_append, List.reverse_cons,
    List.append_assoc, List.singleton_append]
  have hall : ∀ x ∈ fp.reverse, (x != '.') = true := by
    intro x hx
    simpa using hfp x (List.mem_reverse.mp hx)
  rw [takeWhile_append_all hall (by decide)]
  simp

/-- Fixed-point rendering of a nonnegative scaled integer carries exactly
the scale's count of fractional digits. -/
theorem fracDigitCount_decRender {m : Int} (hm : 0 ≤ m) (s : Nat) :
    fracDigitCount (decRender m s) = s := by
  have hsign : ¬ m < 0 := by omega
  have htolist : ∀ l : List Char, (String.mk l).toList = l := fun _ => rfl
  by_cases hs : s = 0
  · subst hs
    rw [decRender, fracDigitCount, htolist]
    simp only [decRenderList, if_pos rfl, if_neg hsign, List.nil_append]
    exact fracDigitCountL_no_dot digitsOf_no_dot
  · have hspos : 0 < s := Nat.pos_of_ne_zero hs
    rw [decRender, fracDigitCount, htolist]
    simp only [decRenderList, if_neg hs, if_neg hsign, List.nil_append]
    have hfp : ∀ c ∈ padZeros s (digitsOf (m.natAbs % 10 ^ s)), c ≠ '.' := by
      intro c hc
      rcases padZeros_mem hc with h0 | hdig
      · subst h0; decide
      · obtain ⟨d, hd, hc'⟩ := digitsOf_mem hdig
        subst hc'
        exact (digitChar_props hd).1
    rw [fracDigitCountL_shape _ _ hfp]
    exact padZeros_length (digitsOf_length (Nat.mod_lt _ (Nat.pos_pow_of_pos s (by omega))) hspos)

/-- Fixed-point rendering of a nonnegative scaled integer contains no
exponent marker: it is never scientific form. -/
theorem plainDecStr_decRender {m : Int} (hm : 0 ≤ m) (s : Nat) :
    plainDecStr (decRender m s) = true := by
  have hsign : ¬ m < 0 := by omega
  rw [plainDecStr, List.all_eq_true]
  intro c hc
  simp only [decRender, String.toList, String.mk] at hc
  simp only [decRenderList, if_neg hsign] at hc
  have hdig : (∃ d, d < 10 ∧ c = digitChar d) ∨ c = '.' ∨ c = '0' := by
    by_cases hs : s = 0
    · simp only [if_pos hs, List.nil_append] at hc
      exact Or.inl (digitsOf_mem hc)
    · simp only [if_neg hs, List.nil_append, List.mem_append, List.mem_cons] at hc
      rcases hc with hc | hc | hc
      · exact Or.inl (digitsOf_mem hc)
      · exact Or.inr (Or.inl hc)
      · rcases padZeros_mem hc with h0 | hdig
        · exact Or.inr (Or.inr h0)
        · exact Or.inl (digitsOf_mem hdig)
  rcases hdig with ⟨d, hd, hc'⟩ | hc' | hc'
  · subst hc'
    have := digitChar_props hd
    simp only [bne_iff_ne, ne_eq, Bool.and_eq_true, decide_eq_true_eq]
    exact ⟨this.2.1, this.2.2.1⟩
  all_goals (subst hc'; decide)

theorem dec_toRat_pos_mant {step : Dec} (hs : 0 < step.toRat) : 0 < step.mant := by
  rw [Dec.toRat_eq] at hs
  have hp : (0 : ℚ) < (10 : ℚ) ^ step.scale := by positivity
  rcases div_pos_iff.mp hs with ⟨h, _⟩ | ⟨_, h⟩
  · exact_mod_cast h
  · linarith

/-- C2: for value ≥ 0 and a positive decimal step, floor_to_step_str
(quantizeDown) denotes the exact integer multiple quantizeDownMult × step,
which is ≤ value and within one step below it, and the returned string has
exactly as many fractional digits as the step (trailing zeros preserved)
and no scientific-form exponent marker. -/
theorem c2_quantize_down_correct (v : ℚ) (step : Dec) (hv : 0 ≤ v)
    (hs : 0 < step.toRat) :
    floor_to_step_str v step = decRender (quantizeDownMult v step * step.mant) step.scale
    ∧ floor_to_step_val v step = (quantizeDownMult v step : ℚ) * step.toRat
    ∧ floor_to_step_val v step ≤ v
    ∧ v - floor_to_step_val v step < step.toRat
    ∧ fracDigitCount (floor_to_step_str v step) = step.scale
    ∧ plainDecStr (floor_to_step_str v step) = true := by
  have hval : floor_to_step_val v step = (quantizeDownMult v step : ℚ) * step.toRat := by
    rw [floor_to_step_val, qmul_eq]
  have hkdef : quantizeDownMult v step = truncQ (v / step.toRat) := by
    rw [quantizeDownMult, qdiv_eq]
  have hq : 0 ≤ v / step.toRat := div_nonneg hv hs.le
  have hle : floor_to_step_val v step ≤ v := by
    rw [hval, hkdef]
    exact (le_div_iff₀ hs).mp (truncQ_cast_le hq)
  have hlt : v - floor_to_step_val v step < step.toRat := by
    have h2 : v < ((truncQ (v / step.toRat) : ℚ) + 1) * step.toRat :=
      (div_lt_iff₀ hs).mp (lt_truncQ_add_one hq)
    rw [hval, hkdef]
    nlinarith [h2]
  have hknn : 0 ≤ quantizeDownMult v step := by
    rw [hkdef]
    exact truncQ_nonneg hq
  have hmnn : 0 ≤ quantizeDownMult v step * step.mant :=
    mul_nonneg hknn (dec_toRat_pos_mant hs).le
  exact ⟨rfl, hval, hle, hlt, fracDigitCount_decRender hmnn _, plainDecStr_decRender hmnn _⟩

/-- Witness for C2 at value 0.123456 and step "0.00001000". -/
theorem c2_quantize_down_correct_witness :
    0 ≤ mkRat 123456 1000000 ∧ 0 < Dec.toRat ⟨1000, 8⟩ ∧
      (floor_to_step_str (mkRat 123456 1000000) ⟨1000, 8⟩
          = decRender (quantizeDownMult (mkRat 123456 1000000) ⟨1000, 8⟩ * (1000 : Int)) 8
        ∧ floor_to_step_val (mkRat 123456 1000000) ⟨1000, 8⟩
          = (quantizeDownMult (mkRat 123456 1000000) ⟨1000, 8⟩ : ℚ) * Dec.toRat ⟨1000, 8⟩
        ∧ floor_to_step_val (mkRat 123456 1000000) ⟨1000, 8⟩ ≤ mkRat 123456 1000000
        ∧ mkRat 123456 1000000 - floor_to_step_val (mkRat 123456 1000000) ⟨1000, 8⟩
          < Dec.toRat ⟨1000, 8⟩
        ∧ fracDigitCount (floor_to_step_str (mkRat 123456 1000000) ⟨1000, 8⟩) = 8
        ∧ plainDecStr (floor_to_step_str (mkRat 123456 1000000) ⟨1000, 8⟩) = true) :=
  ⟨by decide, by decide,
    c2_quantize_down_correct (mkRat 123456 1000000) ⟨1000, 8⟩ (by decide) (by decide)⟩

/-- C8 fails on the code: with step "0.00001000" (8 fractional digits) and
value 0.123456, floor_to_step_str renders 8 fractional digits, so the
result is not the claimed "0.12345". -/
theorem c8_example_counterexample :
    floor_to_step_str (mkRat 123456 1000000) ⟨1000, 8⟩ ≠ "0.12345" := by
  decide

/-- C8 amended: with step "0.00001000" and value 0.123456, quantizeDown
yields "0.12345000" — as many fractional digits as the step string, with
trailing zeros, and not in scientific form. -/
theorem c8_example_amended :
    floor_to_step_str (mkRat 123456 1000000) ⟨1000, 8⟩ = "0.12345000"
    ∧ plainDecStr (floor_to_step_str (mkRat 123456 1000000) ⟨1000, 8⟩) = true := by
  decide

-- ===== signed request client: retry loop =====

/-- Outcome of one HTTP attempt inside _request_with_retries: either the
transport raised (network error / timeout), or a response arrived with the
given status code and body. -/
inductive HttpAttempt
  | err
  | resp (status : Nat) (body : String)
deriving DecidableEq, Repr

def attemptSuccess : HttpAttempt → Bool
  | .err => false
  | .resp status _ => status == 200

/-- Embedding of _request_with_retries from src/main.py. The oracle list
supplies the outcome of each loop iteration (its length plays the role of
RETRY_AMOUNT). Returns the body on the first status-200 response (none when
every attempt fails, i.e. the final generic exception), together with the
number of HTTP attempts actually made. -/
def request_with_retries : List HttpAttempt → Option String × Nat
  | [] => (none, 0)
  | .err :: rest =>
    let r := request_with_retries rest
    (r.1, r.2 + 1)
  | .resp status body :: rest =>
    if status = 200 then (some body, 1)
    else
      let r := request_with_retries rest
      (r.1, r.2 + 1)

/-- C4 fails on the code: after an HTTP 400 business rejection the client
makes a second attempt (2 attempts total) and returns that attempt's
success, instead of surfacing the 4xx immediately without retry. -/
theorem c4_no_4xx_retry_counterexample :
    request_with_retries [.resp 400 "filter violation", .resp 200 "ok"]
      = (some "ok", 2) := by
  decide

/-- C4 amended: the client treats every failed attempt uniformly — network
errors and any non-200 response, 4xx included, cause it to move on to the
next attempt — and after the bound is exhausted with no 200 it surfaces one
generic failure; no 4xx is surfaced immediately or distinguished. -/
theorem c4_retry_classification_amended (status : Nat) (body : String)
    (rest l : List HttpAttempt) (hs : status ≠ 200)
    (hl : ∀ a ∈ l, attemptSuccess a = false) :
    request_with_retries (.resp status body :: rest)
        = ((request_with_retries rest).1, (request_with_retries rest).2 + 1)
    ∧ request_with_retries (.err :: rest)
        = ((request_with_retries rest).1, (request_with_retries rest).2 + 1)
    ∧ request_with_retries l = (none, l.length) := by
  refine ⟨by simp [request_with_retries, hs], rfl, ?_⟩
  induction l with
  | nil => rfl
  | cons a rest2 ih =>
    have ha : attemptSuccess a = false := hl a (List.mem_cons_self a rest2)
    have hrest : ∀ b ∈ rest2, attemptSuccess b = false :=
      fun b hb => hl b (List.mem_cons_of_mem a hb)
    cases a with
    | err =>
      simp [request_with_retries, ih hrest]
    | resp status2 body2 =>
      have hs2 : ¬ status2 = 200 := by
        simpa [attemptSuccess] using ha
      simp [request_with_retries, hs2, ih hrest]

/-- Witness for the amended C4 at a 400 rejection followed by a 200, and an
oracle of exclusively failing attempts. -/
theorem c4_retry_classification_amended_witness :
    (400 : Nat) ≠ 200
    ∧ (∀ a ∈ [HttpAttempt.resp 500 "oops", HttpAttempt.err], attemptSuccess a = false)
    ∧ (request_with_retries [.resp 400 "rejected", .resp 200 "fine"]
          = ((request_with_retries [.resp 200 "fine"]).1,
             (request_with_retries [.resp 200 "fine"]).2 + 1)
        ∧ request_with_retries [.err, .resp 200 "fine"]
          = ((request_with_retries [.resp 200 "fine"]).1,
             (request_with_retries [.resp 200 "fine"]).2 + 1)
        ∧ request_with_retries [HttpAttempt.resp 500 "oops", HttpAttempt.err]
          = (none, [HttpAttempt.resp 500 "oops", HttpAttempt.err].length)) :=
  ⟨by decide, by decide,
    c4_retry_classification_amended 400 "rejected" [.resp 200 "fine"]
      [HttpAttempt.resp 500 "oops", HttpAttempt.err] (by decide) (by decide)⟩

-- ===== risk resolution =====

/-- Webhook payload fields consumed by the execution engine. riskPct is
none when the field is absent, some none when present but unparseable by
float(), and some (some r) when it parses to r. -/
structure WebhookData where
  riskPct : Option (Option ℚ)
  sl : Option ℚ
  tp : Option ℚ
deriving DecidableEq, Repr

/-- Embedding of resolve_risk_pct from src/main.py: start from the default,
overwrite with the webhook risk_pct when present and parseable, then cap by
the Risk Monitor's current allowed fraction. -/
def resolve_risk_pct (webhookData : Option WebhookData)
    (defaultRisk marginMaxRisk : ℚ) : ℚ :=
  let risk :=
    match webhookData with
    | none => defaultRisk
    | some wd =>
      match wd.riskPct with
      | none => defaultRisk
      | some none => defaultRisk
      | some (some r) => r
  qmin risk marginMaxRisk

/-- C6: the effective risk fraction equals min(r, maxRiskFraction) where r
is the webhook risk_pct when present and parseable and the configured
default otherwise. -/
theorem c6_effective_risk_min (w : Option WebhookData) (d m : ℚ) :
    resolve_risk_pct w d m =
      min (match w with
           | some wd =>
             match wd.riskPct with
             | some (some r) => r
             | _ => d
           | none => d) m := by
  rcases w with _ | wd
  · simp [resolve_risk_pct, qmin_eq]
  · rcases hw : wd.riskPct with _ | ro
    · simp [resolve_risk_pct, hw, qmin_eq]
    · rcases ro with _ | r <;> simp [resolve_risk_pct, hw, qmin_eq]

-- ===== risk monitor =====

/-- Process-wide risk state: the pair of module-level globals
TRADING_BLOCKED and MARGIN_MAX_RISK_PCT. -/
structure RiskState where
  blocked : Bool
  maxRisk : ℚ
deriving DecidableEq, Repr

/-- Result of fetching the margin account and parsing marginLevel: fail
when either raises, ok with the parsed level otherwise. -/
inductive MarginFetch
  | fail
  | ok (level : ℚ)
deriving DecidableEq, Repr

/-- Result of one health check: the updated globals, the returned boolean
(false only in the critical branch), and whether the controlled
liquidation clear() was triggered. -/
structure CheckResult where
  state : RiskState
  allowed : Bool
  clearTriggered : Bool
deriving DecidableEq, Repr

/-- Embedding of check_margin_level from src/main.py. Thresholds 1.16,
1.25 and 2 are hard-coded in the source. -/
def check_margin_level (defaultRisk : ℚ) (st : RiskState)
    (fetch : MarginFetch) : CheckResult :=
  match fetch with
  | .fail => ⟨st, true, false⟩
  | .ok level =>
    if level < mkRat 116 100 then ⟨⟨true, st.maxRisk⟩, false, true⟩
    else if level < mkRat 125 100 then ⟨⟨true, st.maxRisk⟩, true, false⟩
    else if level < 2 then ⟨⟨st.blocked, mkRat 2 100⟩, true, false⟩
    else ⟨⟨false, defaultRisk⟩, true, false⟩

theorem mkRat_as_div (n : Int) (d : Nat) : mkRat n d = (n : ℚ) / (d : ℚ) := by
  rw [Rat.mkRat_eq_divInt, Rat.divInt_eq_div]
  norm_cast

/-- C3 fails on the code: a Defensive-range health check (here h = 1.5 with
H_mid = 1.25 ≤ 1.5 < 2 = H_high) entered with tradingBlocked = true leaves
tradingBlocked = true — the defensive branch only lowers the risk cap and
never clears the blocked flag, so the outcome depends on the prior state. -/
theorem c3_defensive_counterexample :
    mkRat 125 100 ≤ mkRat 3 2 ∧ mkRat 3 2 < 2
    ∧ (check_margin_level (mkRat 5 100) ⟨true, mkRat 5 100⟩
        (.ok (mkRat 3 2))).state.blocked = true := by
  decide

/-- C3 amended: for a health check in the Defensive range (1.25 ≤ h < 2)
the Risk Monitor reports trading allowed (returns True), does not trigger
liquidation, sets maxRiskFraction to the reduced value 0.02, and leaves
tradingBlocked unchanged from the prior state (so trading stays allowed
only if it was not already blocked). -/
theorem c3_defensive_amended (defaultRisk : ℚ) (st : RiskState) (level : ℚ)
    (h1 : mkRat 125 100 ≤ level) (h2 : level < 2) :
    check_margin_level defaultRisk st (.ok level)
      = ⟨⟨st.blocked, mkRat 2 100⟩, true, false⟩ := by
  have e116 : mkRat 116 100 = (116 : ℚ) / 100 := mkRat_as_div 116 100
  have e125 : mkRat 125 100 = (125 : ℚ) / 100 := mkRat_as_div 125 100
  rw [e125] at h1
  have hn116 : ¬ level < mkRat 116 100 := by
    rw [e116]
    intro hlt
    have : (116 : ℚ) / 100 ≤ 125 / 100 := by norm_num
    linarith
  have hn125 : ¬ level < mkRat 125 100 := by
    rw [e125]
    intro hlt
    linarith
  rw [check_margin_level]
  rw [if_neg hn116, if_neg hn125, if_pos h2]

/-- Witness for the amended C3 at h = 1.5, entered from a blocked state. -/
theorem c3_defensive_amended_witness :
    mkRat 125 100 ≤ mkRat 3 2 ∧ (mkRat 3 2 : ℚ) < 2
    ∧ check_margin_level (mkRat 5 100) ⟨true, mkRat 5 100⟩ (.ok (mkRat 3 2))
        = ⟨⟨true, mkRat 2 100⟩, true, false⟩ :=
  ⟨by decide, by decide,
    c3_defensive_amended (mkRat 5 100) ⟨true, mkRat 5 100⟩ (mkRat 3 2)
      (by decide) (by decide)⟩

/-- C9: when fetching the margin account or parsing marginLevel raises, the
health check returns True (trading allowed) and leaves both TRADING_BLOCKED
and MARGIN_MAX_RISK_PCT exactly as they were, without triggering the
liquidation path — the gate fails open on data-fetch errors. -/
theorem c9_fail_open (defaultRisk : ℚ) (st : RiskState) :
    check_margin_level defaultRisk st .fail = ⟨st, true, false⟩ :=
  rfl

-- ===== webhook parsing guard =====

/-- Outcome of request.get_json(force=True) at the top of the webhook
handler: raiseErr when the body is malformed or not JSON, otherwise the
parsed value with its Python truthiness (false for an empty payload). -/
inductive ParseOutcome
  | raiseErr
  | val (truthy : Bool)
deriving DecidableEq, Repr

/-- Embedding of the request-parsing guard of the webhook endpoint
(src/main.py lines 665-673): the early response as (HTTP status, error
payload), or none when the handler proceeds past the guard. -/
def webhook_early (p : ParseOutcome) : Option (Nat × String) :=
  match p with
  | .raiseErr => some (400, "Invalid JSON")
  | .val false => some (400, "Empty payload")
  | .val true => none

/-- C7 fails on the code: a malformed (non-JSON) body is answered with
HTTP 400 and an error payload — a 4xx — not with a 200 "ignored" status. -/
theorem c7_malformed_counterexample :
    webhook_early .raiseErr = some (400, "Invalid JSON") ∧ (400 : Nat) ≠ 200 := by
  decide

/-- C7 amended: malformed or non-JSON bodies, and empty payloads, are both
answered with HTTP 400 and an error payload, never with a 200 "ignored"
response. -/
theorem c7_malformed_amended :
    webhook_early .raiseErr = some (400, "Invalid JSON")
    ∧ webhook_early (.val false) = some (400, "Empty payload") := by
  decide

-- ===== shared execution types =====

/-- Symbol trading filters as returned by get_symbol_lot: exact step and
tick strings plus the numeric minimum-quantity and minimum-notional
filters. -/
structure Lot where
  stepSize : Dec
  tickSize : Dec
  minQty : ℚ
  minNotional : ℚ
deriving DecidableEq, Repr

inductive QtyKind
  | quote
  | base
deriving DecidableEq, Repr

/-- One outbound exchange call, at the granularity of a call site (each may
internally retry). Order quantities carry the formatted string payload;
loan and repay amounts carry their numeric value. -/
inductive Call
  | fetchExchangeInfo
  | fetchAccount
  | fetchPrice
  | cancelOpenOrders
  | marginOrder (side : String) (kind : QtyKind) (qty : String)
  | loan (amount : ℚ)
  | repayDebt (amount : ℚ)
  | ocoOrder (side : String) (qty tpPrice slPrice stopLimitPrice : String)
deriving DecidableEq, Repr

def isSellOrder : Call → Bool
  | .marginOrder side _ _ => side == "SELL"
  | _ => false

def isOrderPlacement : Call → Bool
  | .marginOrder _ _ _ => true
  | .loan _ => true
  | .ocoOrder _ _ _ _ _ => true
  | _ => false

inductive Side
  | buy
  | sell
deriving DecidableEq, Repr

def Side.str : Side → String
  | .buy => "BUY"
  | .sell => "SELL"

def Side.opposite : Side → Side
  | .buy => .sell
  | .sell => .buy

/-- Environment-sourced configuration consumed by the engine, plus the
current MARGIN_MAX_RISK_PCT read by risk resolution. -/
structure Config where
  dryRun : Bool
  defaultRisk : ℚ
  marginMaxRisk : ℚ
  stopLossPct : ℚ
  takeProfitPct : ℚ
  commissionBuffer : ℚ
deriving DecidableEq, Repr

-- ===== bracket manager (place_sl_tp_margin) =====

def slRnd (side : Side) : Rnd :=
  match side with
  | .buy => .down
  | .sell => .up

def tpRnd (side : Side) : Rnd :=
  match side with
  | .buy => .up
  | .sell => .down

/-- Raw stop-loss price: the webhook override when present, else the
configured percentage of the entry (divided for shorts). -/
def slRawPrice (cfg : Config) (side : Side) (entry : ℚ) (slo : Option ℚ) : ℚ :=
  match slo with
  | some p => p
  | none =>
    match side with
    | .buy => qmul entry cfg.stopLossPct
    | .sell => qdiv entry cfg.stopLossPct

/-- Raw take-profit price: the webhook override when present, else the
configured percentage of the entry (divided for shorts). -/
def tpRawPrice (cfg : Config) (side : Side) (entry : ℚ) (tpo : Option ℚ) : ℚ :=
  match tpo with
  | some p => p
  | none =>
    match side with
    | .buy => qmul entry cfg.takeProfitPct
    | .sell => qdiv entry cfg.takeProfitPct

def slQuantVal (cfg : Config) (side : Side) (entry : ℚ) (slo : Option ℚ) (lot : Lot) : ℚ :=
  format_price_val (slRawPrice cfg side entry slo) lot.tickSize (slRnd side)

def tpQuantVal (cfg : Config) (side : Side) (entry : ℚ) (tpo : Option ℚ) (lot : Lot) : ℚ :=
  format_price_val (tpRawPrice cfg side entry tpo) lot.tickSize (tpRnd side)

/-- Value of the exit quantity string: filled quantity shaved by the
commission buffer and floored to the step. -/
def exitQtyVal (cfg : Config) (executed_qty : ℚ) (lot : Lot) : ℚ :=
  floor_to_step_val (qmul executed_qty cfg.commissionBuffer) lot.stepSize

/-- One iteration of the per-leg validation loop in place_sl_tp_margin:
the leg passes when its price is positive, at least one tick, and its
notional reaches minNotional. (float() of the rendered price string always
parses, so the malformed-price branch cannot fire in the model.) -/
def legValid (lot : Lot) (price qty : ℚ) : Bool :=
  if price ≤ 0 then false
  else if price < lot.tickSize.toRat then false
  else if qmul price qty < lot.minNotional then false
  else true

/-- Python floor (math.floor) on an exact rational. -/
def mfloor (q : ℚ) : Int :=
  if 0 ≤ q then truncQ q
  else if q.den = 1 then q.num else truncQ q - 1

/-- Suffix after the last dot of a character list, or the whole list when
it has no dot: Python str.split(".")[-1]. -/
def pySplitLastDot (l : List Char) : List Char :=
  (l.reverse.takeWhile (fun c => c != '.')).reverse

def findCharIdx (c : Char) : List Char → Option Nat
  | [] => none
  | a :: rest => if a == c then some 0 else (findCharIdx c rest).map (· + 1)

/-- Number of decimals used to format the stop-limit price: the position of
the first "1" in the fractional part of the tick string. none models
str.find returning -1, which makes the format specifier raise. -/
def stopLimitDecimals (tick : Dec) : Option Nat :=
  findCharIdx '1' (pySplitLastDot (decRenderList tick.mant tick.scale))

/-- Python round-half-even of an exact rational, as used by float fixed
formatting. -/
def pyRoundHalfEven (q : ℚ) : Int :=
  let f := mfloor q
  let r := qsub q ((f : Int) : ℚ)
  if r < mkRat 1 2 then f
  else if mkRat 1 2 < r then f + 1
  else if f % 2 = 0 then f else f + 1

def pyFormatFixed (q : ℚ) (d : Nat) : String :=
  decRender (pyRoundHalfEven (qmul q (pow10 d))) d

/-- Outcome of the one OCO call site inside place_sl_tp_margin. -/
structure BracketEnv where
  ocoOk : Bool
deriving DecidableEq, Repr

/-- Embedding of place_sl_tp_margin from src/main.py: compute both exit
prices, quantize them and the exit quantity, run the sequential per-leg
validation (stop-loss first) whose first failure returns False with no
call made, derive the stop-limit price, and place a single OCO order.
Returns the reported boolean and the outbound calls made. -/
def place_sl_tp_margin (cfg : Config) (env : BracketEnv) (side : Side)
    (entry_price executed_qty : ℚ) (lot : Lot)
    (sl_override tp_override : Option ℚ) : Bool × List Call :=
  let oco_side := side.opposite
  let sl_price_str := format_price_to_tick (slRawPrice cfg side entry_price sl_override)
    lot.tickSize (slRnd side)
  let tp_price_str := format_price_to_tick (tpRawPrice cfg side entry_price tp_override)
    lot.tickSize (tpRnd side)
  let qty_str := floor_to_step_str (qmul executed_qty cfg.commissionBuffer) lot.stepSize
  let qty_f := exitQtyVal cfg executed_qty lot
  if legValid lot (slQuantVal cfg side entry_price sl_override lot) qty_f = false then
    (false, [])
  else if legValid lot (tpQuantVal cfg side entry_price tp_override lot) qty_f = false then
    (false, [])
  else
    let stop_limit_raw := qmul (slQuantVal cfg side entry_price sl_override lot)
      (match side with | .buy => mkRat 999 1000 | .sell => mkRat 1001 1000)
    let tick := lot.tickSize.toRat
    let stop_limit_aligned := qmul ((mfloor (qdiv stop_limit_raw tick) : Int) : ℚ) tick
    match stopLimitDecimals lot.tickSize with
    | none => (false, [])
    | some d =>
      let stop_limit_price := pyFormatFixed stop_limit_aligned d
      let calls := [Call.ocoOrder oco_side.str qty_str tp_price_str sl_price_str stop_limit_price]
      if env.ocoOk then (true, calls) else (false, calls)

/-- C5 fails on the code: with a valid stop-loss leg (price 20, notional
19.98 ≥ minNotional 10) and an invalid take-profit leg (price 5, notional
4.995 < 10), the whole bracket is aborted — the result is False with no
outbound call — instead of skipping the invalid leg and placing the other. -/
theorem c5_leg_validation_counterexample :
    (let cfg : Config :=
      ⟨false, mkRat 5 100, mkRat 5 100, mkRat 98 100, mkRat 104 100, mkRat 999 1000⟩
     let lot : Lot := ⟨⟨1, 3⟩, ⟨1, 2⟩, mkRat 1 1000, 10⟩
     legValid lot (slQuantVal cfg .buy 100 (some 20) lot) (exitQtyVal cfg 1 lot) = true
     ∧ legValid lot (tpQuantVal cfg .buy 100 (some 5) lot) (exitQtyVal cfg 1 lot) = false
     ∧ place_sl_tp_margin cfg ⟨true⟩ .buy 100 1 lot (some 20) (some 5) = (false, [])) := by
  decide

/-- C5 amended: bracket-leg validation is not independent — if either leg
fails validation the whole bracket is aborted: place_sl_tp_margin returns
False and makes no outbound call, never placing only the valid leg. -/
theorem c5_leg_validation_amended (cfg : Config) (env : BracketEnv)
    (side : Side) (entry qty : ℚ) (lot : Lot) (slo tpo : Option ℚ)
    (h : legValid lot (slQuantVal cfg side entry slo lot) (exitQtyVal cfg qty lot) = false
       ∨ legValid lot (tpQuantVal cfg side entry tpo lot) (exitQtyVal cfg qty lot) = false) :
    place_sl_tp_margin cfg env side entry qty lot slo tpo = (false, []) := by
  rcases h with h | h
  · rw [place_sl_tp_margin.eq_def]
    rw [if_pos h]
  · rw [place_sl_tp_margin.eq_def]
    by_cases hsl : legValid lot (slQuantVal cfg side entry slo lot) (exitQtyVal cfg qty lot) = false
    · rw [if_pos hsl]
    · rw [if_neg hsl, if_pos h]

/-- Witness for the amended C5: a bracket whose take-profit leg fails the
notional check is aborted whole. -/
theorem c5_leg_validation_amended_witness :
    (legValid ⟨⟨1, 3⟩, ⟨1, 2⟩, mkRat 1 1000, 10⟩
        (slQuantVal ⟨false, mkRat 5 100, mkRat 5 100, mkRat 98 100, mkRat 104 100, mkRat 999 1000⟩
          .buy 100 (some 20) ⟨⟨1, 3⟩, ⟨1, 2⟩, mkRat 1 1000, 10⟩)
        (exitQtyVal ⟨false, mkRat 5 100, mkRat 5 100, mkRat 98 100, mkRat 104 100, mkRat 999 1000⟩
          1 ⟨⟨1, 3⟩, ⟨1, 2⟩, mkRat 1 1000, 10⟩) = false
      ∨ legValid ⟨⟨1, 3⟩, ⟨1, 2⟩, mkRat 1 1000, 10⟩
        (tpQuantVal ⟨false, mkRat 5 100, mkRat 5 100, mkRat 98 100, mkRat 104 100, mkRat 999 1000⟩
          .buy 100 (some 3) ⟨⟨1, 3⟩, ⟨1, 2⟩, mkRat 1 1000, 10⟩)
        (exitQtyVal ⟨false, mkRat 5 100, mkRat 5 100, mkRat 98 100, mkRat 104 100, mkRat 999 1000⟩
          1 ⟨⟨1, 3⟩, ⟨1, 2⟩, mkRat 1 1000, 10⟩) = false)
    ∧ place_sl_tp_margin
        ⟨false, mkRat 5 100, mkRat 5 100, mkRat 98 100, mkRat 104 100, mkRat 999 1000⟩
        ⟨true⟩ .buy 100 1 ⟨⟨1, 3⟩, ⟨1, 2⟩, mkRat 1 1000, 10⟩ (some 20) (some 3) = (false, []) :=
  ⟨Or.inr (by decide),
    c5_leg_validation_amended _ _ .buy 100 1 _ (some 20) (some 3) (Or.inr (by decide))⟩

-- ===== entry fill reports =====

/-- Exchange order-placement response: either not a dict, or a dict with an
optional fills array of (price, qty) pairs and the executedQty and
cummulativeQuoteQty fields (0 when absent, matching resp.get(..., 0)). -/
inductive OrderResp
  | notDict
  | dict (fills : Option (List (ℚ × ℚ))) (executedQty : ℚ) (cummQuote : ℚ)
deriving DecidableEq, Repr

def sumQty (l : List (ℚ × ℚ)) : ℚ :=
  l.foldr (fun pq acc => qadd pq.2 acc) 0

def sumQuote (l : List (ℚ × ℚ)) : ℚ :=
  l.foldr (fun pq acc => qadd (qmul pq.1 pq.2) acc) 0

/-- Embedding of the fill-report parsing shared by both entry paths:
aggregate the fills array into (executed quantity, volume-weighted entry
price); when the entry price is falsy (None or 0.0) fall back to the
executedQty and cummulativeQuoteQty fields. Numeric parse failures (the
silent except: pass) do not arise in the model. -/
def parse_fills (resp : OrderResp) : ℚ × Option ℚ :=
  match resp with
  | .notDict => (0, none)
  | .dict fillsOpt eqty cumm =>
    let first : ℚ × Option ℚ :=
      match fillsOpt with
      | some fl =>
        let ex := sumQty fl
        (ex, if ex = 0 then none else some (qdiv (sumQuote fl) ex))
      | none => (0, none)
    if first.2 = none ∨ first.2 = some 0 then
      (eqty, if eqty = 0 then first.2 else some (qdiv cumm eqty))
    else first

/-- Python truthiness of the entry price: not None and not 0.0. -/
def entryTruthy : Option ℚ → Bool
  | none => false
  | some p => !(p == 0)

-- ===== position opener: long =====

/-- Per-call-site outcomes for execute_long_margin; none models the call
site raising (for get_symbol_lot, the balance fetch and the order call the
exception propagates to the caller uncaught). -/
structure LongEnv where
  lotRes : Option Lot
  balanceRes : Option ℚ
  webhookData : Option WebhookData
  orderRes : Option OrderResp
  bracketOcoOk : Bool
deriving DecidableEq, Repr

inductive LongResult
  | raised
  | dryRunStop
  | placed
deriving DecidableEq, Repr

/-- Embedding of execute_long_margin from src/main.py: fetch filters and
quote balance, resolve the risk fraction, compute the quote amount
balance × risk, floor it to the tick string, and place the market BUY by
quote amount with no sizing check of any kind; then parse fills and place
the protective bracket when the fill is usable. -/
def execute_long_margin (cfg : Config) (env : LongEnv) : LongResult × List Call :=
  match env.lotRes with
  | none => (.raised, [Call.fetchExchangeInfo])
  | some lot =>
    let balFetch : Option ℚ × List Call :=
      if cfg.dryRun then (some 1000, []) else (env.balanceRes, [Call.fetchAccount])
    match balFetch.1 with
    | none => (.raised, Call.fetchExchangeInfo :: balFetch.2)
    | some balance_usdc =>
      let risk_pct := resolve_risk_pct env.webhookData cfg.defaultRisk cfg.marginMaxRisk
      let qty_quote := qmul balance_usdc risk_pct
      let qtyStr := floor_to_step_str qty_quote lot.tickSize
      if cfg.dryRun then (.dryRunStop, Call.fetchExchangeInfo :: balFetch.2)
      else
        let pre := Call.fetchExchangeInfo :: balFetch.2
          ++ [Call.marginOrder "BUY" QtyKind.quote qtyStr]
        match env.orderRes with
        | none => (.raised, pre)
        | some resp =>
          let parsed := parse_fills resp
          if parsed.1 > 0 ∧ entryTruthy parsed.2 = true then
            let slo := match env.webhookData with
              | some wd => wd.sl
              | none => none
            let tpo := match env.webhookData with
              | some wd => wd.tp
              | none => none
            let entry := match parsed.2 with
              | some p => p
              | none => 0
            let br := place_sl_tp_margin cfg ⟨env.bracketOcoOk⟩ .buy entry parsed.1 lot slo tpo
            (.placed, pre ++ br.2)
          else (.placed, pre)

-- ===== position opener: short =====

/-- Exchange response to the margin loan call: either not a dict, or a
dict whose amount and qty fields may be present; Python "or" chaining
treats 0 as absent. -/
inductive BorrowResp
  | notDict
  | dict (amount : Option ℚ) (qty : Option ℚ)
deriving DecidableEq, Repr

/-- Python x or y chaining over an optional numeric field: a present but
zero (falsy) value falls through to the fallback. -/
def pyOrFalsy (a : Option ℚ) (k : ℚ) : ℚ :=
  match a with
  | some x => if x = 0 then k else x
  | none => k

inductive ShortErr
  | priceFetchFailed
  | invalidPriceEst
  | qtyTooSmall
  | notionalTooSmall
  | borrowedQtyTooSmall
deriving DecidableEq, Repr

inductive ShortResult
  | raised
  | errResult (e : ShortErr)
  | dryRunStop
  | placed
deriving DecidableEq, Repr

def isSizingError : ShortResult → Bool
  | .errResult .qtyTooSmall => true
  | .errResult .notionalTooSmall => true
  | _ => false

structure ShortEnv where
  lotRes : Option Lot
  balanceRes : Option ℚ
  priceRes : Option ℚ
  webhookData : Option WebhookData
  loanRes : Option BorrowResp
  orderRes : Option OrderResp
  bracketOcoOk : Bool
deriving DecidableEq, Repr

/-- Sizing of the short entry: balance × risk ÷ price, then
Decimal.quantize at the step scale with ROUND_DOWN. -/
def shortSizedQty (cfg : Config) (wd : Option WebhookData)
    (balance price : ℚ) (lot : Lot) : ℚ :=
  quantAtScale
    (qdiv (qmul balance (resolve_risk_pct wd cfg.defaultRisk cfg.marginMaxRisk)) price)
    lot.stepSize.scale

/-- Embedding of execute_short_margin from src/main.py: fetch filters,
balance and price (price failures are caught and reported), size the
borrow, reject when the quantity or notional is below the filters, borrow,
re-floor the borrowed amount, place the market SELL, then parse fills and
place the protective bracket when the fill is usable. -/
def execute_short_margin (cfg : Config) (env : ShortEnv) : ShortResult × List Call :=
  match env.lotRes with
  | none => (.raised, [Call.fetchExchangeInfo])
  | some lot =>
    let balFetch : Option ℚ × List Call :=
      if cfg.dryRun then (some 1000, []) else (env.balanceRes, [Call.fetchAccount])
    match balFetch.1 with
    | none => (.raised, Call.fetchExchangeInfo :: balFetch.2)
    | some balance_usdc =>
      let pre1 := Call.fetchExchangeInfo :: balFetch.2 ++ [Call.fetchPrice]
      match env.priceRes with
      | none => (.errResult .priceFetchFailed, pre1)
      | some price_est =>
        if price_est ≤ 0 then (.errResult .invalidPriceEst, pre1)
        else
          let borrow_amount := shortSizedQty cfg env.webhookData balance_usdc price_est lot
          if borrow_amount ≤ 0 ∨ borrow_amount < lot.minQty then
            (.errResult .qtyTooSmall, pre1)
          else if qmul borrow_amount price_est < lot.minNotional then
            (.errResult .notionalTooSmall, pre1)
          else if cfg.dryRun then
            if floor_to_step_val borrow_amount lot.stepSize < lot.minQty then
              (.errResult .borrowedQtyTooSmall, pre1)
            else (.dryRunStop, pre1)
          else
            let loanCall := Call.loan borrow_amount
            match env.loanRes with
            | none => (.raised, pre1 ++ [loanCall])
            | some bresp =>
              let borrowed_qty :=
                match bresp with
                | .notDict => borrow_amount
                | .dict am qt => pyOrFalsy am (pyOrFalsy qt borrow_amount)
              let qty_str := floor_to_step_str borrowed_qty lot.stepSize
              if floor_to_step_val borrowed_qty lot.stepSize < lot.minQty then
                (.errResult .borrowedQtyTooSmall, pre1 ++ [loanCall])
              else
                let pre2 := pre1 ++ [loanCall, Call.marginOrder "SELL" QtyKind.base qty_str]
                match env.orderRes with
                | none => (.raised, pre2)
                | some resp =>
                  let parsed := parse_fills resp
                  if parsed.1 > 0 ∧ entryTruthy parsed.2 = true then
                    let slo := match env.webhookData with
                      | some wd => wd.sl
                      | none => none
                    let tpo := match env.webhookData with
                      | some wd => wd.tp
                      | none => none
                    let entry := match parsed.2 with
                      | some p => p
                      | none => 0
                    let br := place_sl_tp_margin cfg ⟨env.bracketOcoOk⟩ .sell
                      entry parsed.1 lot slo tpo
                    (.placed, pre2 ++ br.2)
                  else (.placed, pre2)

/-- C1 fails on the code for long entries: with balance 0 the computed
quote amount is 0, which quantizes to "0.00" — certainly below
minNotional 10 — yet execute_long_margin performs no sizing check and the
trace contains the outbound market-order placement call. -/
theorem c1_sizing_counterexample :
    (let cfg : Config :=
      ⟨false, mkRat 5 100, mkRat 5 100, mkRat 98 100, mkRat 104 100, mkRat 999 1000⟩
     let lot : Lot := ⟨⟨1, 3⟩, ⟨1, 2⟩, mkRat 1 1000, 10⟩
     let env : LongEnv := ⟨some lot, some 0, none, some .notDict, true⟩
     qmul (0 : ℚ) (resolve_risk_pct none cfg.defaultRisk cfg.marginMaxRisk) = 0
     ∧ (0 : ℚ) < lot.minNotional
     ∧ execute_long_margin cfg env
        = (.placed, [Call.fetchExchangeInfo, Call.fetchAccount,
            Call.marginOrder "BUY" QtyKind.quote "0.00"])
     ∧ (execute_long_margin cfg env).2.countP isOrderPlacement = 1) := by
  decide

/-- C1 amended: only the short entry path enforces the sizing gate — when
the computed borrow quantity quantizes to ≤ 0 or below minQty, or its
notional is below minNotional, execute_short_margin returns a sizing error
and its trace is exactly the three read calls, with no borrow and no
order placement; the long path places its market order unchecked. -/
theorem c1_short_sizing_amended (cfg : Config) (env : ShortEnv) (lot : Lot)
    (b p : ℚ) (hlot : env.lotRes = some lot) (hdry : cfg.dryRun = false)
    (hbal : env.balanceRes = some b) (hprice : env.priceRes = some p)
    (hp : ¬ p ≤ 0)
    (hsz : shortSizedQty cfg env.webhookData b p lot ≤ 0
         ∨ shortSizedQty cfg env.webhookData b p lot < lot.minQty
         ∨ qmul (shortSizedQty cfg env.webhookData b p lot) p < lot.minNotional) :
    isSizingError (execute_short_margin cfg env).1 = true
    ∧ (execute_short_margin cfg env).2
        = [Call.fetchExchangeInfo, Call.fetchAccount, Call.fetchPrice] := by
  rw [execute_short_margin, hlot]
  simp only [hdry, if_false, Bool.false_eq_true]
  rw [hbal]
  simp only [hprice]
  rw [if_neg hp]
  by_cases h1 : shortSizedQty cfg env.webhookData b p lot ≤ 0
      ∨ shortSizedQty cfg env.webhookData b p lot < lot.minQty
  · rw [if_pos h1]
    exact ⟨rfl, rfl⟩
  · have h2 : qmul (shortSizedQty cfg env.webhookData b p lot) p < lot.minNotional := by
      rcases hsz with h | h | h
      · exact absurd (Or.inl h) h1
      · exact absurd (Or.inr h) h1
      · exact h
    rw [if_neg h1, if_pos h2]
    exact ⟨rfl, rfl⟩

/-- Witness for the amended C1: balance 100 at price 50000 with default
risk 5% sizes to 0.0001, which quantizes to 0 at step "0.001" and is
rejected before the borrow and order call sites. -/
theorem c1_short_sizing_amended_witness :
    (ShortEnv.lotRes ⟨some ⟨⟨1, 3⟩, ⟨1, 2⟩, mkRat 1 1000, 10⟩, some 100, some 50000,
        none, some .notDict, some .notDict, true⟩
        = some ⟨⟨1, 3⟩, ⟨1, 2⟩, mkRat 1 1000, 10⟩)
    ∧ ¬ (50000 : ℚ) ≤ 0
    ∧ (isSizingError (execute_short_margin
          ⟨false, mkRat 5 100, mkRat 5 100, mkRat 98 100, mkRat 104 100, mkRat 999 1000⟩
          ⟨some ⟨⟨1, 3⟩, ⟨1, 2⟩, mkRat 1 1000, 10⟩, some 100, some 50000,
            none, some .notDict, some .notDict, true⟩).1 = true
      ∧ (execute_short_margin
          ⟨false, mkRat 5 100, mkRat 5 100, mkRat 98 100, mkRat 104 100, mkRat 999 1000⟩
          ⟨some ⟨⟨1, 3⟩, ⟨1, 2⟩, mkRat 1 1000, 10⟩, some 100, some 50000,
            none, some .notDict, some .notDict, true⟩).2
        = [Call.fetchExchangeInfo, Call.fetchAccount, Call.fetchPrice]) :=
  ⟨by decide, by decide,
    c1_short_sizing_amended
      ⟨false, mkRat 5 100, mkRat 5 100, mkRat 98 100, mkRat 104 100, mkRat 999 1000⟩
      ⟨some ⟨⟨1, 3⟩, ⟨1, 2⟩, mkRat 1 1000, 10⟩, some 100, some 50000,
        none, some .notDict, some .notDict, true⟩
      ⟨⟨1, 3⟩, ⟨1, 2⟩, mkRat 1 1000, 10⟩ 100 50000
      rfl rfl rfl rfl (by decide) (Or.inl (by decide))⟩

-- ===== pre-trade cleanup =====

/-- One userAssets entry of the margin-account response. -/
structure AssetEntry where
  assetName : String
  free : ℚ
  borrowed : ℚ
deriving DecidableEq, Repr

def lookupAsset (name : String) (l : List AssetEntry) : Option AssetEntry :=
  l.find? (fun a => a.assetName == name)

/-- Per-call-site outcomes for handle_pre_trade_cleanup; none models the
call site raising (every such exception is caught by the surrounding step
handler). The cancel, buy-order, repay and sell call sites need no outcome
field because a failure there does not change which calls were made. -/
structure CleanupEnv where
  account2 : Option (List AssetEntry)
  lot2 : Option Lot
  price2 : Option ℚ
  buyOk : Bool
  account2b : Option (List AssetEntry)
  lot3 : Option Lot
  account3 : Option (List AssetEntry)
deriving DecidableEq, Repr

/-- Balance refresh and repay after the optional debt buy: re-read the
account, re-index the base asset (indexing a missing asset raises and is
caught), and repay min(borrowed, free) when positive. -/
def cleanup_refresh (env : CleanupEnv) (base : String) : List Call :=
  match env.account2b with
  | none => [Call.fetchAccount]
  | some assets =>
    match lookupAsset base assets with
    | none => [Call.fetchAccount]
    | some a =>
      let repay_amount := qmin a.borrowed a.free
      if repay_amount > 0 then [Call.fetchAccount, Call.repayDebt repay_amount]
      else [Call.fetchAccount]

/-- Debt handling of step 2 once borrowed > 0: when the debt exceeds the
free base balance, buy the shortfall with a 1.02 buffer, subject to the
step floor, minNotional and available-USDC guards (each guard raises and is
caught by the step handler, skipping the refresh); then refresh and repay. -/
def cleanup_debt (env : CleanupEnv) (borrowed free_base free_usdc : ℚ)
    (base : String) : List Call :=
  let missing := qsub borrowed free_base
  if missing > 0 then
    match env.lot2 with
    | none => [Call.fetchExchangeInfo]
    | some lot =>
      let buy_qty := qmul missing (mkRat 102 100)
      let qty_str := floor_to_step_str buy_qty lot.stepSize
      let qty_f := floor_to_step_val buy_qty lot.stepSize
      if qty_f ≤ 0 then [Call.fetchExchangeInfo]
      else
        match env.price2 with
        | none => [Call.fetchExchangeInfo, Call.fetchPrice]
        | some price_est =>
          if qmul qty_f price_est < lot.minNotional then
            [Call.fetchExchangeInfo, Call.fetchPrice]
          else if qmul qty_f price_est > free_usdc then
            [Call.fetchExchangeInfo, Call.fetchPrice]
          else
            let buyCall := Call.marginOrder "BUY" QtyKind.base qty_str
            if env.buyOk then
              [Call.fetchExchangeInfo, Call.fetchPrice, buyCall] ++ cleanup_refresh env base
            else [Call.fetchExchangeInfo, Call.fetchPrice, buyCall]
  else cleanup_refresh env base

/-- Step 2 of the cleanup (debt repayment). The boolean is true when the
whole function returns early: the base asset is absent from the account
response. A failed account fetch is caught and cleanup continues. -/
def cleanup_step2 (env : CleanupEnv) (base : String) : List Call × Bool :=
  match env.account2 with
  | none => ([Call.fetchAccount], false)
  | some assets =>
    match lookupAsset base assets with
    | none => ([Call.fetchAccount], true)
    | some a =>
      let free_usdc :=
        match lookupAsset "USDC" assets with
        | some u => u.free
        | none => 0
      if a.borrowed ≤ 0 then ([Call.fetchAccount], false)
      else ([Call.fetchAccount] ++ cleanup_debt env a.borrowed a.free free_usdc base, false)

/-- Step 3 of the cleanup: sell the residual free base balance when it is
positive and still positive after the step floor. -/
def cleanup_step3 (env : CleanupEnv) (base : String) : List Call :=
  match env.lot3 with
  | none => [Call.fetchExchangeInfo]
  | some lot =>
    match env.account3 with
    | none => [Call.fetchExchangeInfo, Call.fetchAccount]
    | some assets =>
      match lookupAsset base assets with
      | none => [Call.fetchExchangeInfo, Call.fetchAccount]
      | some a =>
        if a.free ≤ 0 then [Call.fetchExchangeInfo, Call.fetchAccount]
        else
          let qty_str := floor_to_step_str a.free lot.stepSize
          if floor_to_step_val a.free lot.stepSize ≤ 0 then
            [Call.fetchExchangeInfo, Call.fetchAccount]
          else
            [Call.fetchExchangeInfo, Call.fetchAccount,
              Call.marginOrder "SELL" QtyKind.base qty_str]

/-- Embedding of handle_pre_trade_cleanup from src/main.py for the symbol's
base asset (symbol with "USDC" removed): cancel open orders (step 1, its
failure is caught and changes nothing), then step 2, then — unless step 2
returned from the whole function — step 3. -/
def handle_pre_trade_cleanup (env : CleanupEnv) (base : String) : List Call :=
  let s2 := cleanup_step2 env base
  Call.cancelOpenOrders :: s2.1 ++ (if s2.2 then [] else cleanup_step3 env base)

/-- C10: when the step-2 account fetch succeeds and the symbol's base asset
is absent from the response, the cleanup returns immediately after that
fetch — the trace is exactly the cancel and the account read, so step 3 is
never attempted and no residual SELL is made. -/
theorem c10_cleanup_absent_base (env : CleanupEnv) (base : String)
    (assets : List AssetEntry) (h2 : env.account2 = some assets)
    (hn : lookupAsset base assets = none) :
    handle_pre_trade_cleanup env base = [Call.cancelOpenOrders, Call.fetchAccount]
    ∧ (handle_pre_trade_cleanup env base).countP isSellOrder = 0 := by
  have hstep : cleanup_step2 env base = ([Call.fetchAccount], true) := by
    rw [cleanup_step2, h2]
    simp [hn]
  refine ⟨?_, ?_⟩ <;> simp [handle_pre_trade_cleanup, hstep, isSellOrder]

/-- Witness for C10: a margin account holding only USDC contains no entry
for the base asset SOL, so cleanup stops after the step-2 account read. -/
theorem c10_cleanup_absent_base_witness :
    (CleanupEnv.account2 ⟨some [⟨"USDC", 5, 0⟩], none, none, true, none, none,
        some [⟨"USDC", 5, 0⟩, ⟨"SOL", 7, 0⟩]⟩ = some [⟨"USDC", 5, 0⟩])
    ∧ lookupAsset "SOL" [⟨"USDC", 5, 0⟩] = none
    ∧ (handle_pre_trade_cleanup
          ⟨some [⟨"USDC", 5, 0⟩], none, none, true, none, none,
            some [⟨"USDC", 5, 0⟩, ⟨"SOL", 7, 0⟩]⟩ "SOL"
          = [Call.cancelOpenOrders, Call.fetchAccount]
      ∧ (handle_pre_trade_cleanup
          ⟨some [⟨"USDC", 5, 0⟩], none, none, true, none, none,
            some [⟨"USDC", 5, 0⟩, ⟨"SOL", 7, 0⟩]⟩ "SOL").countP isSellOrder = 0) :=
  ⟨rfl, by decide,
    c10_cleanup_absent_base
      ⟨some [⟨"USDC", 5, 0⟩], none, none, true, none, none,
        some [⟨"USDC", 5, 0⟩, ⟨"SOL", 7, 0⟩]⟩ "SOL" [⟨"USDC", 5, 0⟩] rfl (by decide)⟩
